import Mathlib

/-
Verification development for the HAiO vesting program.

The Rust sources are shallowly embedded: public keys are modelled as
natural numbers (with 0 standing for Pubkey::default()), u64 values as
Nat with explicit 2^64 bounds where overflow matters, i64 timestamps as
Int with explicit two's-complement range checks mirroring the checked_*
operations, and fallible handlers as Except values (an error value means
the whole instruction fails and, by the ledger's transaction atomicity,
commits nothing).
-/

namespace HaioVesting

/-- Error codes of the program, mirroring errors.rs (plus the variants
referenced by the instruction handlers: InvalidVaultState, and a generic
deserialization failure standing for Anchor's account-deserialize error). -/
inductive VestingError where
  | Unauthorized
  | MathOverflow
  | TimelockNotExpired
  | InvalidTimestamps
  | InvalidAmount
  | ScheduleFullyProcessed
  | NoTransferableAmount
  | DistributionHubNotSet
  | InvalidVestingScheduleData
  | TooManyAccountsToProcess
  | InvalidRemainingAccount
  | MintMismatch
  | VaultMismatch
  | HubAccountMintMismatch
  | HubAccountOwnerMismatch
  | HubAddressNotChanged
  | VaultAuthorityMismatch
  | ScheduleIdConflict
  | InvalidVaultState
  | AccountDeserializeFailed
  deriving DecidableEq, Repr

instance {ε α : Type} [DecidableEq ε] [DecidableEq α] : DecidableEq (Except ε α) :=
  fun x y =>
    match x, y with
    | .error a, .error b =>
      if h : a = b then .isTrue (by rw [h])
      else .isFalse (by intro hc; cases hc; exact h rfl)
    | .error _, .ok _ => .isFalse (by intro hc; exact Except.noConfusion hc)
    | .ok _, .error _ => .isFalse (by intro hc; exact Except.noConfusion hc)
    | .ok a, .ok b =>
      if h : a = b then .isTrue (by rw [h])
      else .isFalse (by intro hc; cases hc; exact h rfl)

/-- Source category enum from state/vesting_schedule.rs; audit metadata only. -/
inductive SourceCategory where
  | Public
  | Ecosystem
  | Team
  | Liquidity
  | Strategic
  | Foundation
  deriving DecidableEq, Repr

def I64_MIN : Int := -(2 ^ 63)
def I64_MAX : Int := 2 ^ 63 - 1
def U64_MOD : Nat := 2 ^ 64
def U128_MOD : Nat := 2 ^ 128

/-- Rust i64::checked_sub. -/
def checkedSubI64 (a b : Int) : Option Int :=
  if I64_MIN ≤ a - b ∧ a - b ≤ I64_MAX then some (a - b) else none

/-- Rust i64::checked_add. -/
def checkedAddI64 (a b : Int) : Option Int :=
  if I64_MIN ≤ a + b ∧ a + b ≤ I64_MAX then some (a + b) else none

/-- Rust u64::checked_add. -/
def checkedAddU64 (a b : Nat) : Option Nat :=
  if a + b < U64_MOD then some (a + b) else none

/-- Rust u128::checked_mul. -/
def checkedMulU128 (a b : Nat) : Option Nat :=
  if a * b < U128_MOD then some (a * b) else none

/-- Rust u128::checked_div (None exactly on division by zero). -/
def checkedDivU128 (a b : Nat) : Option Nat :=
  if b = 0 then none else some (a / b)

/-- Rust cast `(e : i64) as u128`: two's-complement wrap into [0, 2^128). -/
def i64AsU128 (e : Int) : Nat := (e % (U128_MOD : Int)).toNat

/-- The VestingSchedule account, mirroring state/vesting_schedule.rs. -/
structure VestingSchedule where
  schedule_id : Nat
  recipient : Nat
  recipient_token_account : Nat
  mint : Nat
  token_vault : Nat
  depositor : Nat
  total_amount : Nat
  cliff_timestamp : Int
  vesting_start_timestamp : Int
  vesting_end_timestamp : Int
  amount_transferred : Nat
  source_category : SourceCategory
  is_initialized : Bool
  bump : Nat
  deriving DecidableEq, Repr

/-- VestingSchedule::calculate_unlocked_amount, translated branch for branch
from state/vesting_schedule.rs lines 100-149. -/
def calculate_unlocked_amount (s : VestingSchedule) (current_timestamp : Int) :
    Except VestingError Nat :=
  if s.is_initialized = false then .error .InvalidVestingScheduleData
  else if current_timestamp < s.cliff_timestamp then .ok 0
  else if s.vesting_end_timestamp ≤ current_timestamp then .ok s.total_amount
  else if s.vesting_end_timestamp ≤ s.vesting_start_timestamp ∨
      current_timestamp < s.vesting_start_timestamp then .ok 0
  else
    match checkedSubI64 current_timestamp s.vesting_start_timestamp with
    | none => .error .MathOverflow
    | some elapsed =>
      match checkedSubI64 s.vesting_end_timestamp s.vesting_start_timestamp with
      | none => .error .MathOverflow
      | some duration =>
        if duration = 0 then .ok s.total_amount
        else
          match checkedMulU128 s.total_amount (i64AsU128 elapsed) with
          | none => .error .MathOverflow
          | some prod =>
            match checkedDivU128 prod (i64AsU128 duration) with
            | none => .error .MathOverflow
            | some q =>
              if U64_MOD ≤ q then .error .MathOverflow
              else .ok (min q s.total_amount)

/-- VestingSchedule::get_transferable_amount (saturating_sub on u64 is
truncated Nat subtraction). -/
def get_transferable_amount (s : VestingSchedule) (current_timestamp : Int) :
    Except VestingError Nat :=
  match calculate_unlocked_amount s current_timestamp with
  | .error e => .error e
  | .ok u => .ok (u - s.amount_transferred)

/-- An SPL token account as read by the crank (mint, owner, balance, and
the IsInitialized flag used by `require!(vesting_vault_data.is_initialized())`). -/
structure TokenAccountState where
  mint : Nat
  owner : Nat
  amount : Nat
  is_initialized : Bool
  deriving DecidableEq, Repr

/-- The ProgramConfig account, merging the fields read and written by the
instruction handlers (admin, distribution hub rotation state, schedule
counter, bump). -/
structure ProgramConfig where
  admin : Nat
  distribution_hub : Nat
  pending_hub : Option Nat
  hub_update_timelock : Option Int
  total_schedules : Nat
  bump : Nat
  deriving DecidableEq, Repr

/-- The slice of the ledger the batch crank touches: schedule accounts and
vault token accounts, addressed by their (abstracted) public keys.
A `none` lookup stands for an account whose data does not deserialize as
the expected type. -/
structure AccountsState where
  schedules : Nat → Option VestingSchedule
  vaults : Nat → Option TokenAccountState

def AccountsState.setSchedule (σ : AccountsState) (k : Nat) (s : VestingSchedule) :
    AccountsState :=
  ⟨fun k2 => if k2 = k then some s else σ.schedules k2, σ.vaults⟩

def AccountsState.setVault (σ : AccountsState) (k : Nat) (v : TokenAccountState) :
    AccountsState :=
  ⟨σ.schedules, fun k2 => if k2 = k then some v else σ.vaults k2⟩

/-- How one iteration of the batch-crank loop ends when it does not abort
the call: either the pair was processed (tokens moved, counter bumped) or
it was skipped by one of the four `continue` branches, each of which logs
a distinct message in the source. -/
inductive StepOutcome where
  | processed
  | skippedFull
  | skippedNoTransferable
  | skippedZeroActual
  | skippedConcurrent
  deriving DecidableEq, Repr

/-- One iteration of the loop of instructions/crank_vesting_schedules.rs
(lines 73-208) on the pair (schedule key `sk`, vault key `vk`).
`hubMint` is the mint of the validated distribution-hub token account.
An `Except.error` result is a `?`/`require!` abort of the whole call;
`ok (σ, outcome)` returns the (possibly updated) ledger slice and how the
iteration ended. The token transfer moves `actual` out of the vault; the
schedule write-back persists the first-read schedule with the bumped
`amount_transferred`. -/
def crankStep (hubMint : Nat) (now : Int) (σ : AccountsState) (sk vk : Nat) :
    Except VestingError (AccountsState × StepOutcome) :=
  match σ.schedules sk with
  | none => .error .AccountDeserializeFailed
  | some s =>
    if s.is_initialized = false then .error .InvalidVestingScheduleData
    else
      match σ.vaults vk with
      | none => .error .AccountDeserializeFailed
      | some v =>
        if v.is_initialized = false then .error .InvalidVaultState
        else if v.owner ≠ sk then .error .VaultAuthorityMismatch
        else if s.token_vault ≠ vk then .error .VaultMismatch
        else if v.mint ≠ s.mint then .error .MintMismatch
        else if s.mint ≠ hubMint then .error .HubAccountMintMismatch
        else if s.total_amount ≤ s.amount_transferred then .ok (σ, .skippedFull)
        else
          match get_transferable_amount s now with
          | .error e => .error e
          | .ok transferable =>
            if transferable = 0 then .ok (σ, .skippedNoTransferable)
            else
              let actual := min transferable v.amount
              if actual = 0 then .ok (σ, .skippedZeroActual)
              else
                match σ.schedules sk with
                | none => .error .AccountDeserializeFailed
                | some s2 =>
                  if s2.amount_transferred ≠ s.amount_transferred then
                    .ok (σ, .skippedConcurrent)
                  else
                    match checkedAddU64 s.amount_transferred actual with
                    | none => .error .MathOverflow
                    | some newAmt =>
                      let σ1 := σ.setVault vk { v with amount := v.amount - actual }
                      let σ2 := σ1.setSchedule sk { s with amount_transferred := newAmt }
                      .ok (σ2, .processed)

/-- The batch-crank loop over the caller-supplied (schedule, vault) pairs,
threading the ledger slice and counting processed pairs. Any per-pair
`require!`/`?` error aborts the remainder of the call, exactly as the
`?` operator returns from the handler. -/
def crankBatch (hubMint : Nat) (now : Int) (σ : AccountsState) :
    List (Nat × Nat) → Except VestingError (AccountsState × Nat)
  | [] => .ok (σ, 0)
  | (sk, vk) :: rest =>
    match crankStep hubMint now σ sk vk with
    | .error e => .error e
    | .ok (σ1, o) =>
      match crankBatch hubMint now σ1 rest with
      | .error e => .error e
      | .ok (σ2, n) => .ok (σ2, (if o = .processed then 1 else 0) + n)

def MAX_SCHEDULES_PER_CRANK : Nat := 10

/-- The prelude of the batch-crank handler (crank_vesting_schedules.rs
lines 49-64): the distribution-hub-set check, the pair-count computation
`min(max_schedules, MAX_SCHEDULES_PER_CRANK, (remaining_len / 2) as u8)`
(the `as u8` cast truncates modulo 256), and the
`remaining_len >= count * 2` check that errors TooManyAccountsToProcess.
`maxSchedules` is a u8, so it is below 256 by type. -/
def crankPrelude (distributionHub : Nat) (maxSchedules : Nat) (remainingLen : Nat) :
    Except VestingError Nat :=
  if distributionHub = 0 then .error .DistributionHubNotSet
  else if remainingLen <
      (min (min maxSchedules MAX_SCHEDULES_PER_CRANK) ((remainingLen / 2) % 256)) * 2 then
    .error .TooManyAccountsToProcess
  else .ok (min (min maxSchedules MAX_SCHEDULES_PER_CRANK) ((remainingLen / 2) % 256))

def HUB_UPDATE_TIMELOCK : Int := 2 * 24 * 60 * 60

/-- The update_distribution_hub handler (update_distribution_hub.rs lines
25-96), as a pure state transformer over ProgramConfig. `adminKey` is the
signer; Anchor's has_one constraint rejects a non-admin signer before the
body runs. Case 1: bootstrap when the hub is unset (default key, 0).
Case 2: confirming the pending hub (entered exactly when the input equals
the pending address). Case 3: proposing. -/
def update_distribution_hub (adminKey : Nat) (cfg : ProgramConfig) (newHub : Nat)
    (now : Int) : Except VestingError ProgramConfig :=
  if cfg.admin ≠ adminKey then .error .Unauthorized
  else if cfg.distribution_hub = 0 then
    if newHub = 0 then .error .InvalidAmount
    else .ok { cfg with distribution_hub := newHub }
  else if cfg.pending_hub = some newHub then
    match cfg.hub_update_timelock with
    | none => .error .TimelockNotExpired
    | some timelockExpiry =>
      if now < timelockExpiry then .error .TimelockNotExpired
      else
        .ok { cfg with
              distribution_hub := newHub
              pending_hub := none
              hub_update_timelock := none }
  else if newHub = cfg.distribution_hub then .error .HubAddressNotChanged
  else if cfg.pending_hub = some newHub then .error .HubAddressNotChanged
  else
    match checkedAddI64 now HUB_UPDATE_TIMELOCK with
    | none => .error .MathOverflow
    | some newTimelockExpiry =>
      .ok { cfg with
            pending_hub := some newHub
            hub_update_timelock := some newTimelockExpiry }

/-- Parameters of create_vesting_schedule
(instructions/create_vesting_schedule.rs). -/
structure CreateVestingScheduleParams where
  total_amount : Nat
  cliff_timestamp : Int
  vesting_start_timestamp : Int
  vesting_end_timestamp : Int
  source_category : SourceCategory
  deriving DecidableEq, Repr

/-- The create_vesting_schedule instruction: the Accounts constraints on
the depositor token account (mint match, admin ownership, sufficient
balance - instructions/create_vesting_schedule.rs lines 37-43), checked
by Anchor before the handler, followed by the handler body (lines 68-107):
parameter validation, the sequential-ID check, schedule init, the funding
transfer, and the checked counter increment. Returns the updated config
and the initialized schedule. -/
def create_vesting_schedule (cfg : ProgramConfig) (adminKey : Nat)
    (depositor : TokenAccountState) (mintKey : Nat) (vaultKey : Nat)
    (scheduleId : Nat) (p : CreateVestingScheduleParams) :
    Except VestingError (ProgramConfig × VestingSchedule) :=
  if cfg.admin ≠ adminKey then .error .Unauthorized
  else if depositor.mint ≠ mintKey then .error .MintMismatch
  else if depositor.owner ≠ adminKey then .error .Unauthorized
  else if depositor.amount < p.total_amount then .error .InvalidAmount
  else if ¬ 0 < p.total_amount then .error .InvalidAmount
  else if ¬ (p.cliff_timestamp ≤ p.vesting_start_timestamp ∧
      p.vesting_start_timestamp < p.vesting_end_timestamp) then
    .error .InvalidTimestamps
  else if scheduleId ≠ cfg.total_schedules then .error .ScheduleIdConflict
  else
    let sched : VestingSchedule :=
      { schedule_id := scheduleId
        recipient := 0
        recipient_token_account := 0
        mint := mintKey
        token_vault := vaultKey
        depositor := adminKey
        total_amount := p.total_amount
        cliff_timestamp := p.cliff_timestamp
        vesting_start_timestamp := p.vesting_start_timestamp
        vesting_end_timestamp := p.vesting_end_timestamp
        amount_transferred := 0
        source_category := p.source_category
        is_initialized := true
        bump := 0 }
    match checkedAddU64 cfg.total_schedules 1 with
    | none => .error .MathOverflow
    | some newTotal => .ok ({ cfg with total_schedules := newTotal }, sched)

/-- The single-schedule crank of lib.rs (crank_vesting_schedule, lines
349-492), restricted to the state it reads and writes: the schedule and
its vault balance. The Accounts constraints pin the vault and recipient
accounts to fields stored on the schedule; a constraint failure aborts the
call before the body, leaving the schedule unchanged, so they do not
appear in the amount accounting. Early `return Ok(())` branches leave the
schedule unchanged. -/
def crank_vesting_schedule (s : VestingSchedule) (vaultAmount : Nat)
    (vaultInit : Bool) (now : Int) : Except VestingError VestingSchedule :=
  if s.is_initialized = false then .error .InvalidVestingScheduleData
  else if vaultInit = false then .error .InvalidVaultState
  else if s.total_amount ≤ s.amount_transferred then .ok s
  else
    match get_transferable_amount s now with
    | .error e => .error e
    | .ok transferable =>
      if transferable = 0 then .ok s
      else
        let actual := min transferable vaultAmount
        if actual = 0 then .ok s
        else
          match checkedAddU64 s.amount_transferred actual with
          | none => .error .MathOverflow
          | some newAmt => .ok { s with amount_transferred := newAmt }

/-- A sequence of single-schedule crank calls (each with its own timestamp
and vault state); a call that errors is a failed transaction and commits
nothing. -/
def runSingleCranks (s : VestingSchedule) : List (Int × Nat × Bool) → VestingSchedule
  | [] => s
  | (now, vaultAmount, vaultInit) :: rest =>
    match crank_vesting_schedule s vaultAmount vaultInit now with
    | .error _ => runSingleCranks s rest
    | .ok s1 => runSingleCranks s1 rest

/-- A sequence of batch crank calls (each with its own hub mint, timestamp
and pair list); a call that errors is a failed transaction and commits
nothing. -/
def runBatchCranks (σ : AccountsState) :
    List (Nat × Int × List (Nat × Nat)) → AccountsState
  | [] => σ
  | (hubMint, now, pairs) :: rest =>
    match crankBatch hubMint now σ pairs with
    | .error _ => runBatchCranks σ rest
    | .ok (σ1, _) => runBatchCranks σ1 rest

/-! Relations and concrete fixtures used by the theorems below. -/

/-- Two schedule records that agree on everything except (possibly) the
cumulative amount transferred. -/
def sameStatics (s s2 : VestingSchedule) : Prop :=
  { s with amount_transferred := 0 } = { s2 with amount_transferred := 0 }

/-- How a schedule slot may change across crank iterations: it stays
present (or absent), keeps its statics, and amount_transferred never
decreases. -/
def ScheduleEvolves : Option VestingSchedule → Option VestingSchedule → Prop
  | none, none => True
  | some s, some s2 =>
    sameStatics s s2 ∧ s.amount_transferred ≤ s2.amount_transferred
  | _, _ => False

/-- How a vault slot may change across crank iterations: it stays present
(or absent), keeps mint/owner/init flag, and its balance never grows. -/
def VaultEvolves : Option TokenAccountState → Option TokenAccountState → Prop
  | none, none => True
  | some v, some v2 =>
    v.mint = v2.mint ∧ v.owner = v2.owner ∧
    v.is_initialized = v2.is_initialized ∧ v2.amount ≤ v.amount
  | _, _ => False

def StateEvolves (σ σ2 : AccountsState) : Prop :=
  (∀ k, ScheduleEvolves (σ.schedules k) (σ2.schedules k)) ∧
  (∀ k, VaultEvolves (σ.vaults k) (σ2.vaults k))

/-- The settlement invariant: every schedule on the ledger has
amount_transferred at most total_amount. -/
def AmountsInvariant (σ : AccountsState) : Prop :=
  ∀ k s, σ.schedules k = some s → s.amount_transferred ≤ s.total_amount

/-- Scenario A from the spec: total_amount 1000, cliff = start = 100,
end = 200, nothing transferred yet. -/
def scenarioASchedule : VestingSchedule :=
  { schedule_id := 0
    recipient := 21
    recipient_token_account := 22
    mint := 3
    token_vault := 4
    depositor := 5
    total_amount := 1000
    cliff_timestamp := 100
    vesting_start_timestamp := 100
    vesting_end_timestamp := 200
    amount_transferred := 0
    source_category := .Team
    is_initialized := true
    bump := 255 }

/-- A degenerate schedule whose cliff lies after its vesting end; it
violates the creation invariant cliff ≤ start < end but is expressible
as account data. -/
def degenerateCliffSchedule : VestingSchedule :=
  { scenarioASchedule with
    cliff_timestamp := 300
    vesting_start_timestamp := 100
    vesting_end_timestamp := 200 }

/-- A concrete active configuration with hub 7, pending hub 8, and
timelock expiry 1000. -/
def pendingConfig : ProgramConfig :=
  { admin := 1
    distribution_hub := 7
    pending_hub := some 8
    hub_update_timelock := some 1000
    total_schedules := 3
    bump := 254 }

/-- A concrete configuration with 4 schedules already created, and a
depositor account able to fund 1000 tokens of mint 3. -/
def configWithFour : ProgramConfig :=
  { admin := 1
    distribution_hub := 7
    pending_hub := none
    hub_update_timelock := none
    total_schedules := 4
    bump := 254 }

def depositorAccount : TokenAccountState :=
  { mint := 3, owner := 1, amount := 100000, is_initialized := true }

def scenarioBParams : CreateVestingScheduleParams :=
  { total_amount := 1000
    cliff_timestamp := 100
    vesting_start_timestamp := 100
    vesting_end_timestamp := 200
    source_category := .Ecosystem }

/-- A half-vested schedule: 1000 tokens vesting linearly over [0, 100],
nothing transferred yet; its vault is account 11, its own key is 1. -/
def dupSchedule : VestingSchedule :=
  { schedule_id := 1
    recipient := 21
    recipient_token_account := 22
    mint := 3
    token_vault := 11
    depositor := 5
    total_amount := 1000
    cliff_timestamp := 0
    vesting_start_timestamp := 0
    vesting_end_timestamp := 100
    amount_transferred := 0
    source_category := .Ecosystem
    is_initialized := true
    bump := 7 }

def dupVault : TokenAccountState :=
  { mint := 3, owner := 1, amount := 1000, is_initialized := true }

def crankState0 : AccountsState :=
  ⟨fun k => if k = 1 then some dupSchedule else none,
   fun k => if k = 11 then some dupVault else none⟩

/-- The ledger after cranking the pair (1, 11) at t = 50: 500 of the 1000
are unlocked and moved out. -/
def crankState1 : AccountsState :=
  (crankState0.setVault 11 { dupVault with amount := 500 }).setSchedule 1
    { dupSchedule with amount_transferred := 500 }

/-- A schedule whose stored token_vault (99) differs from the vault
account supplied with it in the batch (12). -/
def mismatchSchedule : VestingSchedule :=
  { dupSchedule with schedule_id := 2, token_vault := 99 }

def mismatchVault : TokenAccountState :=
  { mint := 3, owner := 2, amount := 1000, is_initialized := true }

def mismatchState0 : AccountsState :=
  ⟨fun k =>
     if k = 1 then some dupSchedule
     else if k = 2 then some mismatchSchedule else none,
   fun k =>
     if k = 11 then some dupVault
     else if k = 12 then some mismatchVault else none⟩

/-! Helper lemmas about the unlock computation. -/

theorem i64AsU128_of_nonneg (e : Int) (h0 : 0 ≤ e) (h1 : e < (U128_MOD : Int)) :
    i64AsU128 e = e.toNat := by
  unfold i64AsU128
  rw [Int.emod_eq_of_lt h0 h1]

/-- Whenever the unlock computation succeeds, its value is at most the
schedule's total amount. -/
theorem calc_unlocked_le_total {s : VestingSchedule} {now : Int} {v : Nat}
    (h : calculate_unlocked_amount s now = .ok v) : v ≤ s.total_amount := by
  unfold calculate_unlocked_amount at h
  split at h
  · exact Except.noConfusion h
  split at h
  · cases h; exact Nat.zero_le _
  split at h
  · cases h; exact Nat.le_refl _
  split at h
  · cases h; exact Nat.zero_le _
  split at h
  · exact Except.noConfusion h
  split at h
  · exact Except.noConfusion h
  split at h
  · cases h; exact Nat.le_refl _
  split at h
  · exact Except.noConfusion h
  split at h
  · exact Except.noConfusion h
  split at h
  · exact Except.noConfusion h
  · cases h; exact Nat.min_le_right _ _

/-- Closed-form case analysis of a successful unlock computation. -/
theorem calc_unlocked_ok_cases {s : VestingSchedule} {now : Int} {v : Nat}
    (h : calculate_unlocked_amount s now = .ok v) :
    s.is_initialized = true ∧
    ((now < s.cliff_timestamp ∧ v = 0) ∨
     (s.cliff_timestamp ≤ now ∧ s.vesting_end_timestamp ≤ now ∧
       v = s.total_amount) ∨
     (s.cliff_timestamp ≤ now ∧ now < s.vesting_end_timestamp ∧
       (s.vesting_end_timestamp ≤ s.vesting_start_timestamp ∨
         now < s.vesting_start_timestamp) ∧ v = 0) ∨
     (s.cliff_timestamp ≤ now ∧ now < s.vesting_end_timestamp ∧
       s.vesting_start_timestamp ≤ now ∧
       s.vesting_start_timestamp < s.vesting_end_timestamp ∧
       v = min (s.total_amount * (now - s.vesting_start_timestamp).toNat /
         (s.vesting_end_timestamp - s.vesting_start_timestamp).toNat)
         s.total_amount)) := by
  unfold calculate_unlocked_amount at h
  split at h
  · exact Except.noConfusion h
  next hinit =>
  refine ⟨by revert hinit; cases s.is_initialized <;> simp, ?_⟩
  split at h
  next hcliff => cases h; exact Or.inl ⟨hcliff, rfl⟩
  next hcliff =>
  split at h
  next hend => cases h; exact Or.inr (Or.inl ⟨by omega, hend, rfl⟩)
  next hend =>
  split at h
  next hmid => cases h; exact Or.inr (Or.inr (Or.inl ⟨by omega, by omega, hmid, rfl⟩))
  next hmid =>
  split at h
  · exact Except.noConfusion h
  next elapsed helapsed =>
  split at h
  · exact Except.noConfusion h
  next duration hduration =>
  unfold checkedSubI64 at helapsed hduration
  split at helapsed
  · next hb =>
    cases helapsed
    split at hduration
    · next hb2 =>
      cases hduration
      split at h
      · omega
      next hdur0 =>
      split at h
      · exact Except.noConfusion h
      next prod hprod =>
      split at h
      · exact Except.noConfusion h
      next q hq =>
      split at h
      · exact Except.noConfusion h
      next hq64 =>
      cases h
      unfold checkedMulU128 at hprod
      split at hprod
      · cases hprod
        unfold checkedDivU128 at hq
        split at hq
        · exact Option.noConfusion hq
        · cases hq
          refine Or.inr (Or.inr (Or.inr ⟨by omega, by omega, by omega, by omega, ?_⟩))
          have he : i64AsU128 (now - s.vesting_start_timestamp) =
              (now - s.vesting_start_timestamp).toNat := by
            apply i64AsU128_of_nonneg
            · omega
            · have : (I64_MAX : Int) < (U128_MOD : Int) := by decide
              unfold I64_MAX at hb
              unfold U128_MOD
              omega
          have hd : i64AsU128 (s.vesting_end_timestamp - s.vesting_start_timestamp) =
              (s.vesting_end_timestamp - s.vesting_start_timestamp).toNat := by
            apply i64AsU128_of_nonneg
            · omega
            · unfold I64_MAX at hb2
              unfold U128_MOD
              omega
          rw [he, hd]
      · exact Option.noConfusion hprod
    · exact Option.noConfusion hduration
  · exact Option.noConfusion helapsed

theorem calc_before_cliff {s : VestingSchedule} {now : Int}
    (hinit : s.is_initialized = true) (h : now < s.cliff_timestamp) :
    calculate_unlocked_amount s now = .ok 0 := by
  unfold calculate_unlocked_amount
  rw [if_neg (by simp [hinit]), if_pos h]

theorem calc_after_end {s : VestingSchedule} {now : Int}
    (hinit : s.is_initialized = true) (hc : s.cliff_timestamp ≤ now)
    (he : s.vesting_end_timestamp ≤ now) :
    calculate_unlocked_amount s now = .ok s.total_amount := by
  unfold calculate_unlocked_amount
  rw [if_neg (by simp [hinit]), if_neg (by omega), if_pos he]

theorem calc_zero_mid {s : VestingSchedule} {now : Int}
    (hinit : s.is_initialized = true) (hc : s.cliff_timestamp ≤ now)
    (he : ¬ s.vesting_end_timestamp ≤ now)
    (hm : s.vesting_end_timestamp ≤ s.vesting_start_timestamp ∨
      now < s.vesting_start_timestamp) :
    calculate_unlocked_amount s now = .ok 0 := by
  unfold calculate_unlocked_amount
  rw [if_neg (by simp [hinit]), if_neg (by omega), if_neg he, if_pos hm]

/-- The linear-interpolation branch, computed under the creation invariants
and explicit no-overflow bounds (total fits u64, duration fits i64). -/
theorem calc_interp {s : VestingSchedule} {now : Int}
    (hinit : s.is_initialized = true) (hc : s.cliff_timestamp ≤ now)
    (he : ¬ s.vesting_end_timestamp ≤ now)
    (hs : s.vesting_start_timestamp ≤ now)
    (hse : s.vesting_start_timestamp < s.vesting_end_timestamp)
    (hdur : s.vesting_end_timestamp - s.vesting_start_timestamp ≤ I64_MAX)
    (htot : s.total_amount < U64_MOD) :
    calculate_unlocked_amount s now =
      .ok (min (s.total_amount * (now - s.vesting_start_timestamp).toNat /
        (s.vesting_end_timestamp - s.vesting_start_timestamp).toNat)
        s.total_amount) := by
  have hIm : I64_MAX = 2 ^ 63 - 1 := rfl
  have helapsed : checkedSubI64 now s.vesting_start_timestamp =
      some (now - s.vesting_start_timestamp) := by
    unfold checkedSubI64
    rw [if_pos]
    exact ⟨by unfold I64_MIN; omega, by omega⟩
  have hduration : checkedSubI64 s.vesting_end_timestamp s.vesting_start_timestamp =
      some (s.vesting_end_timestamp - s.vesting_start_timestamp) := by
    unfold checkedSubI64
    rw [if_pos]
    exact ⟨by unfold I64_MIN; omega, hdur⟩
  have he128 : i64AsU128 (now - s.vesting_start_timestamp) =
      (now - s.vesting_start_timestamp).toNat := by
    apply i64AsU128_of_nonneg _ (by omega)
    unfold U128_MOD
    omega
  have hd128 : i64AsU128 (s.vesting_end_timestamp - s.vesting_start_timestamp) =
      (s.vesting_end_timestamp - s.vesting_start_timestamp).toNat := by
    apply i64AsU128_of_nonneg _ (by omega)
    unfold U128_MOD
    omega
  have hetoNat : (now - s.vesting_start_timestamp).toNat < 2 ^ 63 := by omega
  have hmul : checkedMulU128 s.total_amount
      (i64AsU128 (now - s.vesting_start_timestamp)) =
      some (s.total_amount * (now - s.vesting_start_timestamp).toNat) := by
    unfold checkedMulU128
    rw [he128, if_pos]
    have h1 : s.total_amount ≤ 2 ^ 64 - 1 := by unfold U64_MOD at htot; omega
    have h2 : (now - s.vesting_start_timestamp).toNat ≤ 2 ^ 63 - 1 := by omega
    have := Nat.mul_le_mul h1 h2
    calc s.total_amount * (now - s.vesting_start_timestamp).toNat
        ≤ (2 ^ 64 - 1) * (2 ^ 63 - 1) := this
      _ < U128_MOD := by unfold U128_MOD; norm_num
  have hdiv : checkedDivU128
      (s.total_amount * (now - s.vesting_start_timestamp).toNat)
      (i64AsU128 (s.vesting_end_timestamp - s.vesting_start_timestamp)) =
      some (s.total_amount * (now - s.vesting_start_timestamp).toNat /
        (s.vesting_end_timestamp - s.vesting_start_timestamp).toNat) := by
    unfold checkedDivU128
    rw [hd128, if_neg]
    omega
  have hqle : s.total_amount * (now - s.vesting_start_timestamp).toNat /
      (s.vesting_end_timestamp - s.vesting_start_timestamp).toNat ≤
      s.total_amount := by
    have hd0 : 0 < (s.vesting_end_timestamp - s.vesting_start_timestamp).toNat := by
      omega
    calc s.total_amount * (now - s.vesting_start_timestamp).toNat /
          (s.vesting_end_timestamp - s.vesting_start_timestamp).toNat
        ≤ s.total_amount * (s.vesting_end_timestamp - s.vesting_start_timestamp).toNat /
          (s.vesting_end_timestamp - s.vesting_start_timestamp).toNat :=
          Nat.div_le_div_right (Nat.mul_le_mul_left _ (by omega))
      _ = s.total_amount := Nat.mul_div_cancel _ hd0
  have hd0 : ¬ (s.vesting_end_timestamp - s.vesting_start_timestamp = 0) := by omega
  have hq0 : ¬ U64_MOD ≤ s.total_amount * (now - s.vesting_start_timestamp).toNat /
      (s.vesting_end_timestamp - s.vesting_start_timestamp).toNat := by
    unfold U64_MOD at htot ⊢
    omega
  unfold calculate_unlocked_amount
  rw [if_neg (by simp [hinit]), if_neg (by omega), if_neg he, if_neg (by omega)]
  simp only [helapsed, hduration, if_neg hd0, hmul, hdiv, if_neg hq0]

/-- Claim C1: for every initialized schedule satisfying the creation
invariants (total_amount > 0, cliff ≤ start < end, u64/i64 well-formed)
and every timestamp at which the checked arithmetic does not overflow,
calculate_unlocked_amount returns 0 before the cliff, total_amount at or
after the end, 0 before the start, and otherwise the floor-interpolated
amount clamped to total_amount; and on Scenario A the transferable amount
is 0 at t=100, 500 at t=150, and 1000 at t=200. -/
theorem claim_c1_unlock_formula :
    (∀ (s : VestingSchedule) (now : Int),
      s.is_initialized = true →
      0 < s.total_amount → s.total_amount < U64_MOD →
      s.cliff_timestamp ≤ s.vesting_start_timestamp →
      s.vesting_start_timestamp < s.vesting_end_timestamp →
      s.vesting_end_timestamp - s.vesting_start_timestamp ≤ I64_MAX →
      (now < s.cliff_timestamp → calculate_unlocked_amount s now = .ok 0) ∧
      (s.vesting_end_timestamp ≤ now →
        calculate_unlocked_amount s now = .ok s.total_amount) ∧
      (now < s.vesting_start_timestamp →
        calculate_unlocked_amount s now = .ok 0) ∧
      (s.cliff_timestamp ≤ now → s.vesting_start_timestamp ≤ now →
        now < s.vesting_end_timestamp →
        calculate_unlocked_amount s now =
          .ok (min (s.total_amount * (now - s.vesting_start_timestamp).toNat /
            (s.vesting_end_timestamp - s.vesting_start_timestamp).toNat)
            s.total_amount))) ∧
    get_transferable_amount scenarioASchedule 100 = .ok 0 ∧
    get_transferable_amount scenarioASchedule 150 = .ok 500 ∧
    get_transferable_amount scenarioASchedule 200 = .ok 1000 := by
  refine ⟨fun s now hinit htpos htlt hcs hse hdur => ⟨?_, ?_, ?_, ?_⟩, by decide, by decide, by decide⟩
  · exact fun h => calc_before_cliff hinit h
  · exact fun h => calc_after_end hinit (by omega) h
  · intro h
    by_cases hc : now < s.cliff_timestamp
    · exact calc_before_cliff hinit hc
    · exact calc_zero_mid hinit (by omega) (by omega) (Or.inr h)
  · intro hc hs hlt
    exact calc_interp hinit hc (by omega) hs hse hdur htlt

/-- Witness for claim C1 at Scenario A's schedule and t = 150. -/
theorem claim_c1_unlock_formula_witness :
    calculate_unlocked_amount scenarioASchedule 150 =
      .ok (min (1000 * (150 - (100 : Int)).toNat / (200 - (100 : Int)).toNat) 1000) :=
  ((claim_c1_unlock_formula.1 scenarioASchedule 150 rfl (by decide) (by decide)
    (by decide) (by decide) (by decide)).2.2.2 (by decide) (by decide) (by decide))

/-- Counterexample to claim C6: at t = 250 the degenerate schedule has
passed its vesting end (200) but not its cliff (300); the code returns 0,
not total_amount, because the cliff check precedes the end check. -/
theorem claim_c6_counterexample :
    degenerateCliffSchedule.is_initialized = true ∧
    degenerateCliffSchedule.vesting_end_timestamp ≤ 250 ∧
    calculate_unlocked_amount degenerateCliffSchedule 250 = .ok 0 ∧
    calculate_unlocked_amount degenerateCliffSchedule 250 ≠
      .ok degenerateCliffSchedule.total_amount := by
  refine ⟨rfl, by decide, by decide, by decide⟩

/-- Claim C6 (amended): for every initialized schedule, whenever
now ≥ vesting_end_timestamp AND now ≥ cliff_timestamp the unlock
computation returns total_amount regardless of the start/end
relationship; when now < cliff_timestamp it returns 0 even if
now ≥ vesting_end_timestamp, because the cliff check runs first. -/
theorem claim_c6_end_unlock (s : VestingSchedule) (now : Int)
    (hinit : s.is_initialized = true)
    (he : s.vesting_end_timestamp ≤ now) :
    (s.cliff_timestamp ≤ now →
      calculate_unlocked_amount s now = .ok s.total_amount) ∧
    (now < s.cliff_timestamp → calculate_unlocked_amount s now = .ok 0) :=
  ⟨fun hc => calc_after_end hinit hc he, fun hc => calc_before_cliff hinit hc⟩

/-- Witness for claim C6 (amended) on the degenerate schedule at t = 350
(past both cliff and end) and t = 250 (past end, before cliff). -/
theorem claim_c6_end_unlock_witness :
    calculate_unlocked_amount degenerateCliffSchedule 350 = .ok 1000 ∧
    calculate_unlocked_amount degenerateCliffSchedule 250 = .ok 0 :=
  ⟨(claim_c6_end_unlock degenerateCliffSchedule 350 rfl (by decide)).1 (by decide),
   (claim_c6_end_unlock degenerateCliffSchedule 250 rfl (by decide)).2 (by decide)⟩

/-- Claim C7: under the creation invariants the unlock amount is
monotonically non-decreasing in the timestamp and bounded by
total_amount, whenever both computations are defined. -/
theorem claim_c7_monotone (s : VestingSchedule) (t1 t2 : Int) (v1 v2 : Nat)
    (hcs : s.cliff_timestamp ≤ s.vesting_start_timestamp)
    (hse : s.vesting_start_timestamp < s.vesting_end_timestamp)
    (h12 : t1 ≤ t2)
    (h1 : calculate_unlocked_amount s t1 = .ok v1)
    (h2 : calculate_unlocked_amount s t2 = .ok v2) :
    v1 ≤ v2 ∧ v2 ≤ s.total_amount := by
  refine ⟨?_, calc_unlocked_le_total h2⟩
  have hb1 := calc_unlocked_le_total h1
  rcases (calc_unlocked_ok_cases h1).2 with ⟨hc1, hv1⟩ | ⟨hc1, he1, hv1⟩ |
    ⟨hc1, he1, hm1, hv1⟩ | ⟨hc1, he1, hs1, hse1, hv1⟩
  · subst hv1; exact Nat.zero_le _
  · -- t1 past the end, so t2 is as well
    rcases (calc_unlocked_ok_cases h2).2 with ⟨hc2, hv2⟩ | ⟨hc2, he2, hv2⟩ |
      ⟨hc2, he2, hm2, hv2⟩ | ⟨hc2, he2, hs2, hse2, hv2⟩
    · omega
    · subst hv1; subst hv2; exact Nat.le_refl _
    · omega
    · omega
  · subst hv1; exact Nat.zero_le _
  · -- t1 in the linear segment
    rcases (calc_unlocked_ok_cases h2).2 with ⟨hc2, hv2⟩ | ⟨hc2, he2, hv2⟩ |
      ⟨hc2, he2, hm2, hv2⟩ | ⟨hc2, he2, hs2, hse2, hv2⟩
    · omega
    · subst hv2; exact hb1
    · omega
    · subst hv1; subst hv2
      refine min_le_min ?_ (Nat.le_refl _)
      exact Nat.div_le_div_right (Nat.mul_le_mul_left _ (by omega))

/-- Witness for claim C7 at Scenario A's schedule, t1 = 120, t2 = 170. -/
theorem claim_c7_monotone_witness :
    (200 : Nat) ≤ 700 ∧ (700 : Nat) ≤ scenarioASchedule.total_amount :=
  claim_c7_monotone scenarioASchedule 120 170 200 700 (by decide) (by decide)
    (by decide) (by decide) (by decide)

/-- Claim C4: with the hub active and a pending address plus its timelock
expiry stored, confirming that address before the expiry rejects with
TimelockNotExpired (committing nothing), confirming at or after succeeds
and produces exactly the configuration with the hub replaced and both
pending fields cleared, and a repeat call with the same address on the
confirmed configuration rejects, so confirmation happens exactly once. -/
theorem claim_c4_rotation_timelock (adminKey : Nat) (cfg : ProgramConfig)
    (p : Nat) (expiry : Int)
    (hactive : cfg.distribution_hub ≠ 0)
    (hadmin : cfg.admin = adminKey)
    (hpend : cfg.pending_hub = some p)
    (htl : cfg.hub_update_timelock = some expiry) :
    (∀ now, now < expiry →
      update_distribution_hub adminKey cfg p now = .error .TimelockNotExpired) ∧
    (∀ now, expiry ≤ now →
      update_distribution_hub adminKey cfg p now =
        .ok { cfg with
              distribution_hub := p
              pending_hub := none
              hub_update_timelock := none }) ∧
    (∀ now2,
      update_distribution_hub adminKey
        { cfg with
          distribution_hub := p
          pending_hub := none
          hub_update_timelock := none } p now2 =
        .error (if p = 0 then .InvalidAmount else .HubAddressNotChanged)) := by
  refine ⟨?_, ?_, ?_⟩
  · intro now hlt
    unfold update_distribution_hub
    simp [hadmin, hactive, hpend, htl, hlt]
  · intro now hge
    unfold update_distribution_hub
    simp [hadmin, hactive, hpend, htl, not_lt.mpr hge]
  · intro now2
    unfold update_distribution_hub
    by_cases hp0 : p = 0
    · subst hp0
      simp [hadmin]
    · simp [hadmin, hp0]

/-- Witness for claim C4 at the concrete pending configuration. -/
theorem claim_c4_rotation_timelock_witness :
    update_distribution_hub 1 pendingConfig 8 999 = .error .TimelockNotExpired ∧
    update_distribution_hub 1 pendingConfig 8 1000 =
      .ok { pendingConfig with
            distribution_hub := 8
            pending_hub := none
            hub_update_timelock := none } ∧
    update_distribution_hub 1
      { pendingConfig with
        distribution_hub := 8
        pending_hub := none
        hub_update_timelock := none } 8 1000 =
      .error .HubAddressNotChanged := by
  have h := claim_c4_rotation_timelock 1 pendingConfig 8 1000 (by decide) rfl rfl rfl
  refine ⟨h.1 999 (by decide), h.2.1 1000 (by decide), ?_⟩
  have h3 := h.2.2 1000
  rw [if_neg (by decide)] at h3
  exact h3

/-- Claim C5: schedule creation succeeds only with schedule_id equal to
the current total_schedules counter and then increments the counter by
exactly one; an otherwise-valid creation with any other schedule_id is
rejected with ScheduleIdConflict. -/
theorem claim_c5_sequential_ids :
    (∀ (cfg : ProgramConfig) (adminKey : Nat) (depositor : TokenAccountState)
      (mintKey vaultKey scheduleId : Nat) (p : CreateVestingScheduleParams)
      (cfg2 : ProgramConfig) (sched : VestingSchedule),
      create_vesting_schedule cfg adminKey depositor mintKey vaultKey scheduleId p =
        .ok (cfg2, sched) →
      scheduleId = cfg.total_schedules ∧
      cfg2.total_schedules = cfg.total_schedules + 1) ∧
    (∀ (cfg : ProgramConfig) (adminKey : Nat) (depositor : TokenAccountState)
      (mintKey vaultKey scheduleId : Nat) (p : CreateVestingScheduleParams),
      cfg.admin = adminKey → depositor.mint = mintKey →
      depositor.owner = adminKey → p.total_amount ≤ depositor.amount →
      0 < p.total_amount →
      p.cliff_timestamp ≤ p.vesting_start_timestamp →
      p.vesting_start_timestamp < p.vesting_end_timestamp →
      scheduleId ≠ cfg.total_schedules →
      create_vesting_schedule cfg adminKey depositor mintKey vaultKey scheduleId p =
        .error .ScheduleIdConflict) := by
  constructor
  · intro cfg adminKey depositor mintKey vaultKey scheduleId p cfg2 sched h
    unfold create_vesting_schedule at h
    split at h
    · exact Except.noConfusion h
    split at h
    · exact Except.noConfusion h
    split at h
    · exact Except.noConfusion h
    split at h
    · exact Except.noConfusion h
    split at h
    · exact Except.noConfusion h
    split at h
    · exact Except.noConfusion h
    split at h
    · exact Except.noConfusion h
    next hid =>
    split at h
    · exact Except.noConfusion h
    next newTotal hadd =>
    cases h
    unfold checkedAddU64 at hadd
    split at hadd
    · cases hadd
      exact ⟨by omega, rfl⟩
    · exact Option.noConfusion hadd
  · intro cfg adminKey depositor mintKey vaultKey scheduleId p hadmin hmint howner
      hbal htot hts1 hts2 hid
    unfold create_vesting_schedule
    rw [if_neg (by omega), if_neg (by omega), if_neg (by omega),
      if_neg (by omega), if_neg (by omega), if_neg (by simp [hts1, hts2]),
      if_pos hid]

/-- Witness for claim C5: Scenario B, creating with schedule_id 5 while
total_schedules is 4 is rejected with the ID-conflict error, and a
creation with schedule_id 4 succeeds and bumps the counter to 5. -/
theorem claim_c5_sequential_ids_witness :
    create_vesting_schedule configWithFour 1 depositorAccount 3 40 5
      scenarioBParams = .error .ScheduleIdConflict ∧
    ((4 : Nat) = configWithFour.total_schedules ∧
      ({ configWithFour with total_schedules := 5 } : ProgramConfig).total_schedules =
        configWithFour.total_schedules + 1) := by
  constructor
  · exact claim_c5_sequential_ids.2 configWithFour 1 depositorAccount 3 40 5
      scenarioBParams rfl rfl rfl (by decide) (by decide) (by decide) (by decide)
      (by decide)
  · exact claim_c5_sequential_ids.1 configWithFour 1 depositorAccount 3 40 4
      scenarioBParams { configWithFour with total_schedules := 5 }
      { schedule_id := 4
        recipient := 0
        recipient_token_account := 0
        mint := 3
        token_vault := 40
        depositor := 1
        total_amount := 1000
        cliff_timestamp := 100
        vesting_start_timestamp := 100
        vesting_end_timestamp := 200
        amount_transferred := 0
        source_category := .Ecosystem
        is_initialized := true
        bump := 0 }
      (by decide)

/-! Machinery for the batch-crank claims: which parts of the ledger a
crank call can change, and how. -/

theorem sameStatics_refl (s : VestingSchedule) : sameStatics s s := rfl

theorem sameStatics_trans {a b c : VestingSchedule}
    (h1 : sameStatics a b) (h2 : sameStatics b c) : sameStatics a c :=
  h1.trans h2

theorem sameStatics_fields {s s2 : VestingSchedule} (h : sameStatics s s2) :
    s.schedule_id = s2.schedule_id ∧ s.mint = s2.mint ∧
    s.token_vault = s2.token_vault ∧ s.total_amount = s2.total_amount ∧
    s.cliff_timestamp = s2.cliff_timestamp ∧
    s.vesting_start_timestamp = s2.vesting_start_timestamp ∧
    s.vesting_end_timestamp = s2.vesting_end_timestamp ∧
    s.is_initialized = s2.is_initialized := by
  unfold sameStatics at h
  have h1 := congrArg VestingSchedule.schedule_id h
  have h2 := congrArg VestingSchedule.mint h
  have h3 := congrArg VestingSchedule.token_vault h
  have h4 := congrArg VestingSchedule.total_amount h
  have h5 := congrArg VestingSchedule.cliff_timestamp h
  have h6 := congrArg VestingSchedule.vesting_start_timestamp h
  have h7 := congrArg VestingSchedule.vesting_end_timestamp h
  have h8 := congrArg VestingSchedule.is_initialized h
  exact ⟨h1, h2, h3, h4, h5, h6, h7, h8⟩

/-- The unlock computation never reads amount_transferred, so it is
invariant across settlements of the same schedule. -/
theorem calc_unlocked_congr {s s2 : VestingSchedule} (now : Int)
    (h : sameStatics s s2) :
    calculate_unlocked_amount s now = calculate_unlocked_amount s2 now := by
  obtain ⟨_, _, _, h4, h5, h6, h7, h8⟩ := sameStatics_fields h
  unfold calculate_unlocked_amount
  rw [h4, h5, h6, h7, h8]

theorem scheduleEvolves_refl (a : Option VestingSchedule) : ScheduleEvolves a a := by
  cases a
  · trivial
  · exact ⟨sameStatics_refl _, Nat.le_refl _⟩

theorem vaultEvolves_refl (a : Option TokenAccountState) : VaultEvolves a a := by
  cases a
  · trivial
  · exact ⟨rfl, rfl, rfl, Nat.le_refl _⟩

theorem scheduleEvolves_trans {a b c : Option VestingSchedule}
    (h1 : ScheduleEvolves a b) (h2 : ScheduleEvolves b c) :
    ScheduleEvolves a c := by
  cases a <;> cases b <;> cases c <;> simp_all [ScheduleEvolves]
  exact ⟨sameStatics_trans h1.1 h2.1, Nat.le_trans h1.2 h2.2⟩

theorem vaultEvolves_trans {a b c : Option TokenAccountState}
    (h1 : VaultEvolves a b) (h2 : VaultEvolves b c) : VaultEvolves a c := by
  cases a with
  | none =>
    cases b with
    | none =>
      cases c with
      | none => trivial
      | some _ => exact absurd h2 (by simp [VaultEvolves])
    | some _ => exact absurd h1 (by simp [VaultEvolves])
  | some v =>
    cases b with
    | none => exact absurd h1 (by simp [VaultEvolves])
    | some v2 =>
      cases c with
      | none => exact absurd h2 (by simp [VaultEvolves])
      | some v3 =>
        obtain ⟨m1, o1, i1, a1⟩ := h1
        obtain ⟨m2, o2, i2, a2⟩ := h2
        exact ⟨m1.trans m2, o1.trans o2, i1.trans i2, Nat.le_trans a2 a1⟩

theorem stateEvolves_refl (σ : AccountsState) : StateEvolves σ σ :=
  ⟨fun _ => scheduleEvolves_refl _, fun _ => vaultEvolves_refl _⟩

theorem stateEvolves_trans {a b c : AccountsState}
    (h1 : StateEvolves a b) (h2 : StateEvolves b c) : StateEvolves a c :=
  ⟨fun k => scheduleEvolves_trans (h1.1 k) (h2.1 k),
   fun k => vaultEvolves_trans (h1.2 k) (h2.2 k)⟩

theorem scheduleEvolves_some {a : VestingSchedule} {b : Option VestingSchedule}
    (h : ScheduleEvolves (some a) b) :
    ∃ s2, b = some s2 ∧ sameStatics a s2 ∧
      a.amount_transferred ≤ s2.amount_transferred := by
  cases b
  · exact absurd h (by simp [ScheduleEvolves])
  · exact ⟨_, rfl, h.1, h.2⟩

theorem vaultEvolves_some {a : TokenAccountState} {b : Option TokenAccountState}
    (h : VaultEvolves (some a) b) :
    ∃ v2, b = some v2 ∧ a.mint = v2.mint ∧ a.owner = v2.owner ∧
      a.is_initialized = v2.is_initialized ∧ v2.amount ≤ a.amount := by
  cases b
  · exact absurd h (by simp [VaultEvolves])
  · exact ⟨_, rfl, h.1, h.2.1, h.2.2.1, h.2.2.2⟩

theorem bool_ne_false {b : Bool} (h : ¬ b = false) : b = true := by
  cases b
  · exact absurd rfl h
  · rfl

/-- Complete case analysis of a non-aborting crank iteration: the pair
passed every validation, and the iteration either skipped (leaving the
ledger untouched) for one of the three reachable skip reasons, or
processed the pair, moving min(transferable, balance) out of the vault
and onto the schedule's cumulative counter. The concurrent-modification
skip never occurs. -/
theorem crankStep_ok_cases {hub : Nat} {now : Int} {σ : AccountsState}
    {sk vk : Nat} {σ2 : AccountsState} {o : StepOutcome}
    (h : crankStep hub now σ sk vk = .ok (σ2, o)) :
    ∃ s v, σ.schedules sk = some s ∧ σ.vaults vk = some v ∧
      s.is_initialized = true ∧ v.is_initialized = true ∧
      v.owner = sk ∧ s.token_vault = vk ∧ v.mint = s.mint ∧ s.mint = hub ∧
      ((o = .skippedFull ∧ σ2 = σ ∧
        s.total_amount ≤ s.amount_transferred) ∨
       (s.amount_transferred < s.total_amount ∧
        ∃ u, calculate_unlocked_amount s now = .ok u ∧
         ((o = .skippedNoTransferable ∧ σ2 = σ ∧ u ≤ s.amount_transferred) ∨
          (o = .skippedZeroActual ∧ σ2 = σ ∧ s.amount_transferred < u ∧
            v.amount = 0) ∨
          (o = .processed ∧ s.amount_transferred < u ∧ 0 < v.amount ∧
            s.amount_transferred +
              min (u - s.amount_transferred) v.amount < U64_MOD ∧
            σ2 = (σ.setVault vk
                { v with amount :=
                    v.amount - min (u - s.amount_transferred) v.amount }).setSchedule
                sk
                { s with amount_transferred :=
                    s.amount_transferred +
                      min (u - s.amount_transferred) v.amount })))) := by
  unfold crankStep at h
  split at h
  · exact Except.noConfusion h
  next s heq1 =>
  by_cases hsi : s.is_initialized = false
  · rw [if_pos hsi] at h
    exact Except.noConfusion h
  rw [if_neg hsi] at h
  split at h
  · exact Except.noConfusion h
  next v heq2 =>
  by_cases hvi : v.is_initialized = false
  · rw [if_pos hvi] at h
    exact Except.noConfusion h
  rw [if_neg hvi] at h
  by_cases hown : v.owner ≠ sk
  · rw [if_pos hown] at h
    exact Except.noConfusion h
  rw [if_neg hown] at h
  by_cases htv : s.token_vault ≠ vk
  · rw [if_pos htv] at h
    exact Except.noConfusion h
  rw [if_neg htv] at h
  by_cases hvm : v.mint ≠ s.mint
  · rw [if_pos hvm] at h
    exact Except.noConfusion h
  rw [if_neg hvm] at h
  by_cases hsm : s.mint ≠ hub
  · rw [if_pos hsm] at h
    exact Except.noConfusion h
  rw [if_neg hsm] at h
  refine ⟨s, v, heq1, heq2, bool_ne_false hsi, bool_ne_false hvi,
    by omega, by omega, by omega, by omega, ?_⟩
  by_cases hfull : s.total_amount ≤ s.amount_transferred
  · rw [if_pos hfull] at h
    cases h
    exact Or.inl ⟨rfl, rfl, hfull⟩
  rw [if_neg hfull] at h
  split at h
  · exact Except.noConfusion h
  next t heqT =>
  unfold get_transferable_amount at heqT
  split at heqT
  · exact Except.noConfusion heqT
  next u hequ =>
  cases heqT
  refine Or.inr ⟨by omega, u, hequ, ?_⟩
  by_cases ht0 : u - s.amount_transferred = 0
  · rw [if_pos ht0] at h
    cases h
    exact Or.inl ⟨rfl, rfl, by omega⟩
  rw [if_neg ht0] at h
  by_cases hact0 : min (u - s.amount_transferred) v.amount = 0
  · rw [if_pos hact0] at h
    cases h
    exact Or.inr (Or.inl ⟨rfl, rfl, by omega, by omega⟩)
  rw [if_neg hact0] at h
  split at h
  · next heq3 => exact Option.noConfusion heq3
  next s2 heq3 =>
  injection heq3 with hss
  subst hss
  by_cases hcc : s.amount_transferred ≠ s.amount_transferred
  · exact absurd rfl hcc
  rw [if_neg hcc] at h
  split at h
  · exact Except.noConfusion h
  next newAmt hadd =>
  unfold checkedAddU64 at hadd
  split at hadd
  · next hlt =>
    cases hadd
    cases h
    exact Or.inr (Or.inr ⟨rfl, by omega, by omega, hlt, rfl⟩)
  · exact Option.noConfusion hadd

/-- Forward evaluation: a validated pair whose schedule is already fully
transferred is skipped, leaving the ledger untouched. -/
theorem crankStep_eval_full {hub : Nat} {now : Int} {σ : AccountsState}
    {sk vk : Nat} {s : VestingSchedule} {v : TokenAccountState}
    (hs : σ.schedules sk = some s) (hv : σ.vaults vk = some v)
    (hsi : s.is_initialized = true) (hvi : v.is_initialized = true)
    (hown : v.owner = sk) (htv : s.token_vault = vk) (hvm : v.mint = s.mint)
    (hsm : s.mint = hub)
    (hfull : s.total_amount ≤ s.amount_transferred) :
    crankStep hub now σ sk vk = .ok (σ, .skippedFull) := by
  unfold crankStep
  simp only [hs, hv, hsi, hvi, hown, htv, hvm, hsm]
  rw [if_neg (by simp), if_neg (by simp), if_neg (by simp), if_neg (by simp),
    if_neg (by simp), if_neg (by simp), if_pos hfull]

/-- Forward evaluation: a validated, not-yet-full pair with zero
transferable amount is skipped, leaving the ledger untouched. -/
theorem crankStep_eval_noTransferable {hub : Nat} {now : Int}
    {σ : AccountsState} {sk vk : Nat} {s : VestingSchedule}
    {v : TokenAccountState} {u : Nat}
    (hs : σ.schedules sk = some s) (hv : σ.vaults vk = some v)
    (hsi : s.is_initialized = true) (hvi : v.is_initialized = true)
    (hown : v.owner = sk) (htv : s.token_vault = vk) (hvm : v.mint = s.mint)
    (hsm : s.mint = hub)
    (hnotfull : ¬ s.total_amount ≤ s.amount_transferred)
    (hu : calculate_unlocked_amount s now = .ok u)
    (hle : u ≤ s.amount_transferred) :
    crankStep hub now σ sk vk = .ok (σ, .skippedNoTransferable) := by
  unfold crankStep
  simp only [hs, hv, hsi, hvi, hown, htv, hvm, hsm, get_transferable_amount, hu]
  rw [if_neg (by simp), if_neg (by simp), if_neg (by simp), if_neg (by simp),
    if_neg (by simp), if_neg (by simp), if_neg hnotfull,
    if_pos (Nat.sub_eq_zero_of_le hle)]

/-- Forward evaluation: a validated, not-yet-full pair with positive
transferable amount but an empty vault is skipped, leaving the ledger
untouched. -/
theorem crankStep_eval_zeroActual {hub : Nat} {now : Int}
    {σ : AccountsState} {sk vk : Nat} {s : VestingSchedule}
    {v : TokenAccountState} {u : Nat}
    (hs : σ.schedules sk = some s) (hv : σ.vaults vk = some v)
    (hsi : s.is_initialized = true) (hvi : v.is_initialized = true)
    (hown : v.owner = sk) (htv : s.token_vault = vk) (hvm : v.mint = s.mint)
    (hsm : s.mint = hub)
    (hnotfull : ¬ s.total_amount ≤ s.amount_transferred)
    (hu : calculate_unlocked_amount s now = .ok u)
    (hgt : s.amount_transferred < u)
    (hbal : v.amount = 0) :
    crankStep hub now σ sk vk = .ok (σ, .skippedZeroActual) := by
  unfold crankStep
  simp only [hs, hv, hsi, hvi, hown, htv, hvm, hsm, get_transferable_amount, hu]
  rw [if_neg (by simp), if_neg (by simp), if_neg (by simp), if_neg (by simp),
    if_neg (by simp), if_neg (by simp), if_neg hnotfull,
    if_neg (by omega), if_pos (by omega)]

/-- A non-aborting crank iteration only moves the ledger along the
evolution order: schedules keep their statics and amount_transferred can
only grow, vaults keep their statics and can only drain. -/
theorem crankStep_evolves {hub : Nat} {now : Int} {σ : AccountsState}
    {sk vk : Nat} {σ2 : AccountsState} {o : StepOutcome}
    (h : crankStep hub now σ sk vk = .ok (σ2, o)) : StateEvolves σ σ2 := by
  obtain ⟨s, v, hs, hv, _, _, _, _, _, _, hcases⟩ := crankStep_ok_cases h
  rcases hcases with ⟨_, hσ, _⟩ | ⟨_, u, _, ⟨_, hσ, _⟩ | ⟨_, hσ, _, _⟩ |
    ⟨_, _, _, _, hσ⟩⟩
  · exact hσ ▸ stateEvolves_refl σ
  · exact hσ ▸ stateEvolves_refl σ
  · exact hσ ▸ stateEvolves_refl σ
  · subst hσ
    constructor
    · intro k
      unfold AccountsState.setSchedule AccountsState.setVault
      by_cases hk : k = sk
      · subst hk
        simp only [if_pos rfl, hs]
        exact ⟨rfl, by simp⟩
      · simp only [if_neg hk]
        exact scheduleEvolves_refl _
    · intro k
      unfold AccountsState.setSchedule AccountsState.setVault
      by_cases hk : k = vk
      · subst hk
        simp only [if_pos rfl, hv]
        exact ⟨rfl, rfl, rfl, Nat.sub_le _ _⟩
      · simp only [if_neg hk]
        exact vaultEvolves_refl _

/-- A whole batch only moves the ledger along the evolution order. -/
theorem crankBatch_evolves {hub : Nat} {now : Int} :
    ∀ (pairs : List (Nat × Nat)) (σ σ2 : AccountsState) (n : Nat),
    crankBatch hub now σ pairs = .ok (σ2, n) → StateEvolves σ σ2 := by
  intro pairs
  induction pairs with
  | nil =>
    intro σ σ2 n h
    unfold crankBatch at h
    cases h
    exact stateEvolves_refl σ
  | cons p rest ih =>
    intro σ σ2 n h
    obtain ⟨sk, vk⟩ := p
    unfold crankBatch at h
    cases hstep : crankStep hub now σ sk vk with
    | error e =>
      simp only [hstep] at h
      exact Except.noConfusion h
    | ok r =>
      obtain ⟨σ1, o⟩ := r
      simp only [hstep] at h
      cases hrest : crankBatch hub now σ1 rest with
      | error e =>
        simp only [hrest] at h
        exact Except.noConfusion h
      | ok r2 =>
        obtain ⟨σ3, m⟩ := r2
        simp only [hrest] at h
        have hσ : σ3 = σ2 := congrArg Prod.fst (Except.ok.inj h)
        subst hσ
        exact stateEvolves_trans (crankStep_evolves hstep) (ih σ1 σ3 m hrest)

/-- A validated pair in a state where the schedule is full, nothing is
transferable, or the vault is empty, is skipped without touching the
ledger, and never via the concurrent-modification guard. -/
theorem crankStep_skip_at {hub : Nat} {now : Int} {τ : AccountsState}
    {sk vk : Nat} {sτ : VestingSchedule} {vτ : TokenAccountState}
    (hsτ : τ.schedules sk = some sτ) (hvτ : τ.vaults vk = some vτ)
    (hsi : sτ.is_initialized = true) (hvi : vτ.is_initialized = true)
    (hown : vτ.owner = sk) (htv : sτ.token_vault = vk)
    (hvm : vτ.mint = sτ.mint) (hsm : sτ.mint = hub)
    (hcond : sτ.total_amount ≤ sτ.amount_transferred ∨
      (∃ u, calculate_unlocked_amount sτ now = .ok u ∧
        (u ≤ sτ.amount_transferred ∨ vτ.amount = 0))) :
    ∃ o2, crankStep hub now τ sk vk = .ok (τ, o2) ∧ o2 ≠ .processed ∧
      o2 ≠ .skippedConcurrent := by
  by_cases hfτ : sτ.total_amount ≤ sτ.amount_transferred
  · exact ⟨.skippedFull,
      crankStep_eval_full hsτ hvτ hsi hvi hown htv hvm hsm hfτ,
      by decide, by decide⟩
  rcases hcond with hfull | ⟨u, huτ, hc⟩
  · exact absurd hfull hfτ
  by_cases hleτ : u ≤ sτ.amount_transferred
  · exact ⟨.skippedNoTransferable,
      crankStep_eval_noTransferable hsτ hvτ hsi hvi hown htv hvm hsm hfτ
        huτ hleτ,
      by decide, by decide⟩
  have hbal : vτ.amount = 0 := by
    rcases hc with hc | hc
    · exact absurd hc hleτ
    · exact hc
  exact ⟨.skippedZeroActual,
    crankStep_eval_zeroActual hsτ hvτ hsi hvi hown htv hvm hsm hfτ huτ
      (by omega) hbal,
    by decide, by decide⟩

/-- Transport a pair's accounts along an evolution of the ledger. -/
theorem evolved_pair_facts {σ2 τ : AccountsState} {sk vk : Nat}
    {s1 : VestingSchedule} {v1 : TokenAccountState}
    (hev : StateEvolves σ2 τ)
    (hs : σ2.schedules sk = some s1) (hv : σ2.vaults vk = some v1) :
    ∃ sτ vτ, τ.schedules sk = some sτ ∧ τ.vaults vk = some vτ ∧
      sameStatics s1 sτ ∧ s1.amount_transferred ≤ sτ.amount_transferred ∧
      v1.mint = vτ.mint ∧ v1.owner = vτ.owner ∧
      v1.is_initialized = vτ.is_initialized ∧ vτ.amount ≤ v1.amount := by
  have h1 := hev.1 sk
  rw [hs] at h1
  have h2 := hev.2 vk
  rw [hv] at h2
  obtain ⟨sτ, hsτ, hstat, hamt⟩ := scheduleEvolves_some h1
  obtain ⟨vτ, hvτ, hm, ho, hi, ha⟩ := vaultEvolves_some h2
  exact ⟨sτ, vτ, hsτ, hvτ, hstat, hamt, hm, ho, hi, ha⟩

/-- Once a pair has gone through a non-aborting crank iteration, that
pair stays a zero-release skip in every later state of the same
settlement round (same timestamp), and the skip is never the
concurrent-modification guard. -/
theorem crankStep_stable {hub : Nat} {now : Int} {σ σ2 : AccountsState}
    {sk vk : Nat} {o : StepOutcome}
    (hstep : crankStep hub now σ sk vk = .ok (σ2, o))
    {τ : AccountsState} (hev : StateEvolves σ2 τ) :
    ∃ o2, crankStep hub now τ sk vk = .ok (τ, o2) ∧ o2 ≠ .processed ∧
      o2 ≠ .skippedConcurrent := by
  obtain ⟨s, v, hs, hv, hsi, hvi, hown, htv, hvm, hsm, hcases⟩ :=
    crankStep_ok_cases hstep
  rcases hcases with ⟨_, hσ, hfull⟩ | ⟨hnf, u, hu, hsub⟩
  · subst hσ
    obtain ⟨sτ, vτ, hsτ, hvτ, hstat, hamt, hm, ho, hi, ha⟩ :=
      evolved_pair_facts hev hs hv
    obtain ⟨_, hmint, htv2, htot, _, _, _, hinit2⟩ := sameStatics_fields hstat
    exact crankStep_skip_at hsτ hvτ (hinit2.symm.trans hsi) (hi.symm.trans hvi)
      (ho.symm.trans hown) (htv2.symm.trans htv)
      (hm.symm.trans (hvm.trans hmint)) (hmint.symm.trans hsm)
      (Or.inl (by omega))
  · rcases hsub with ⟨_, hσ, hle⟩ | ⟨_, hσ, hgt, hbal⟩ | ⟨_, hgt, hbalpos, hov, hσ⟩
    · subst hσ
      obtain ⟨sτ, vτ, hsτ, hvτ, hstat, hamt, hm, ho, hi, ha⟩ :=
        evolved_pair_facts hev hs hv
      obtain ⟨_, hmint, htv2, htot, _, _, _, hinit2⟩ := sameStatics_fields hstat
      have huτ : calculate_unlocked_amount sτ now = .ok u := by
        rw [← calc_unlocked_congr now hstat]
        exact hu
      exact crankStep_skip_at hsτ hvτ (hinit2.symm.trans hsi) (hi.symm.trans hvi)
        (ho.symm.trans hown) (htv2.symm.trans htv)
        (hm.symm.trans (hvm.trans hmint)) (hmint.symm.trans hsm)
        (Or.inr ⟨u, huτ, Or.inl (by omega)⟩)
    · subst hσ
      obtain ⟨sτ, vτ, hsτ, hvτ, hstat, hamt, hm, ho, hi, ha⟩ :=
        evolved_pair_facts hev hs hv
      obtain ⟨_, hmint, htv2, htot, _, _, _, hinit2⟩ := sameStatics_fields hstat
      have huτ : calculate_unlocked_amount sτ now = .ok u := by
        rw [← calc_unlocked_congr now hstat]
        exact hu
      exact crankStep_skip_at hsτ hvτ (hinit2.symm.trans hsi) (hi.symm.trans hvi)
        (ho.symm.trans hown) (htv2.symm.trans htv)
        (hm.symm.trans (hvm.trans hmint)) (hmint.symm.trans hsm)
        (Or.inr ⟨u, huτ, Or.inr (by omega)⟩)
    · subst hσ
      have hs2 : ((σ.setVault vk
          { v with amount :=
              v.amount - min (u - s.amount_transferred) v.amount }).setSchedule sk
          { s with amount_transferred :=
              s.amount_transferred +
                min (u - s.amount_transferred) v.amount }).schedules sk =
          some { s with amount_transferred :=
              s.amount_transferred + min (u - s.amount_transferred) v.amount } := by
        unfold AccountsState.setSchedule AccountsState.setVault
        simp
      have hv2 : ((σ.setVault vk
          { v with amount :=
              v.amount - min (u - s.amount_transferred) v.amount }).setSchedule sk
          { s with amount_transferred :=
              s.amount_transferred +
                min (u - s.amount_transferred) v.amount }).vaults vk =
          some { v with amount :=
              v.amount - min (u - s.amount_transferred) v.amount } := by
        unfold AccountsState.setSchedule AccountsState.setVault
        simp
      obtain ⟨sτ, vτ, hsτ, hvτ, hstat, hamt, hm, ho, hi, ha⟩ :=
        evolved_pair_facts hev hs2 hv2
      have hamt2 : s.amount_transferred +
          min (u - s.amount_transferred) v.amount ≤ sτ.amount_transferred := hamt
      have ha2 : vτ.amount ≤
          v.amount - min (u - s.amount_transferred) v.amount := ha
      have hm2 : v.mint = vτ.mint := hm
      have ho2 : v.owner = vτ.owner := ho
      have hi2 : v.is_initialized = vτ.is_initialized := hi
      have hstat0 : sameStatics s sτ := sameStatics_trans rfl hstat
      obtain ⟨_, hmint, htv2, htot, _, _, _, hinit2⟩ := sameStatics_fields hstat0
      have huτ : calculate_unlocked_amount sτ now = .ok u := by
        rw [← calc_unlocked_congr now hstat0]
        exact hu
      refine crankStep_skip_at hsτ hvτ (hinit2.symm.trans hsi)
        (hi2.symm.trans hvi) (ho2.symm.trans hown) (htv2.symm.trans htv)
        (hm2.symm.trans (hvm.trans hmint)) (hmint.symm.trans hsm)
        (Or.inr ⟨u, huτ, ?_⟩)
      by_cases hcase : u - s.amount_transferred ≤ v.amount
      · exact Or.inl (by omega)
      · exact Or.inr (by omega)

/-- After a successful batch, re-running the same pair list at the same
timestamp from any further-evolved state is a complete no-op: every pair
skips, the state is unchanged, and the processed count is 0. -/
theorem crankBatch_stable {hub : Nat} {now : Int} :
    ∀ (pairs : List (Nat × Nat)) (σ σf : AccountsState) (n : Nat),
    crankBatch hub now σ pairs = .ok (σf, n) →
    ∀ τ, StateEvolves σf τ → crankBatch hub now τ pairs = .ok (τ, 0) := by
  intro pairs
  induction pairs with
  | nil =>
    intro σ σf n h τ hev
    rfl
  | cons p rest ih =>
    intro σ σf n h τ hev
    obtain ⟨sk, vk⟩ := p
    unfold crankBatch at h
    cases hstep : crankStep hub now σ sk vk with
    | error e =>
      simp only [hstep] at h
      exact Except.noConfusion h
    | ok r =>
      obtain ⟨σ1, o⟩ := r
      simp only [hstep] at h
      cases hrest : crankBatch hub now σ1 rest with
      | error e =>
        simp only [hrest] at h
        exact Except.noConfusion h
      | ok r2 =>
        obtain ⟨σ3, m⟩ := r2
        simp only [hrest] at h
        have hσ : σ3 = σf := congrArg Prod.fst (Except.ok.inj h)
        subst hσ
        have hev1 : StateEvolves σ1 τ :=
          stateEvolves_trans (crankBatch_evolves rest σ1 σ3 m hrest) hev
        obtain ⟨o2, hstep2, hnp, _⟩ := crankStep_stable hstep hev1
        have hrest2 := ih σ1 σ3 m hrest τ hev
        unfold crankBatch
        simp only [hstep2, hrest2, if_neg hnp]

theorem crankStep_preserves_inv {hub : Nat} {now : Int} {σ σ2 : AccountsState}
    {sk vk : Nat} {o : StepOutcome}
    (hinv : AmountsInvariant σ)
    (h : crankStep hub now σ sk vk = .ok (σ2, o)) : AmountsInvariant σ2 := by
  obtain ⟨s, v, hs, hv, _, _, _, _, _, _, hcases⟩ := crankStep_ok_cases h
  rcases hcases with ⟨_, hσ, _⟩ | ⟨hnf, u, hu, ⟨_, hσ, _⟩ | ⟨_, hσ, _, _⟩ |
    ⟨_, hgt, _, _, hσ⟩⟩
  · exact hσ ▸ hinv
  · exact hσ ▸ hinv
  · exact hσ ▸ hinv
  · subst hσ
    intro k s3 hk
    simp only [AccountsState.setSchedule, AccountsState.setVault] at hk
    by_cases hkk : k = sk
    · subst hkk
      rw [if_pos rfl] at hk
      injection hk with hk
      subst hk
      have hut := calc_unlocked_le_total hu
      simp only
      omega
    · rw [if_neg hkk] at hk
      exact hinv k s3 hk

theorem crankBatch_preserves_inv {hub : Nat} {now : Int} :
    ∀ (pairs : List (Nat × Nat)) (σ σ2 : AccountsState) (n : Nat),
    AmountsInvariant σ → crankBatch hub now σ pairs = .ok (σ2, n) →
    AmountsInvariant σ2 := by
  intro pairs
  induction pairs with
  | nil =>
    intro σ σ2 n hinv h
    cases h
    exact hinv
  | cons p rest ih =>
    intro σ σ2 n hinv h
    obtain ⟨sk, vk⟩ := p
    unfold crankBatch at h
    cases hstep : crankStep hub now σ sk vk with
    | error e =>
      simp only [hstep] at h
      exact Except.noConfusion h
    | ok r =>
      obtain ⟨σ1, o⟩ := r
      simp only [hstep] at h
      cases hrest : crankBatch hub now σ1 rest with
      | error e =>
        simp only [hrest] at h
        exact Except.noConfusion h
      | ok r2 =>
        obtain ⟨σ3, m⟩ := r2
        simp only [hrest] at h
        have hσ : σ3 = σ2 := congrArg Prod.fst (Except.ok.inj h)
        subst hσ
        exact ih σ1 σ3 m (crankStep_preserves_inv hinv hstep) hrest

/-- Single-schedule crank: amount_transferred does not decrease, stays at
most total_amount, and all other fields are untouched. -/
theorem crankSingle_bounds {s : VestingSchedule} {vaultAmount : Nat}
    {vaultInit : Bool} {now : Int} {s2 : VestingSchedule}
    (hinv : s.amount_transferred ≤ s.total_amount)
    (h : crank_vesting_schedule s vaultAmount vaultInit now = .ok s2) :
    s.amount_transferred ≤ s2.amount_transferred ∧
    s2.amount_transferred ≤ s2.total_amount ∧ sameStatics s s2 := by
  unfold crank_vesting_schedule at h
  split at h
  · exact Except.noConfusion h
  split at h
  · exact Except.noConfusion h
  split at h
  · cases h
    exact ⟨Nat.le_refl _, hinv, sameStatics_refl _⟩
  next hnf =>
  split at h
  · exact Except.noConfusion h
  next t heqT =>
  unfold get_transferable_amount at heqT
  split at heqT
  · exact Except.noConfusion heqT
  next u hequ =>
  cases heqT
  have hut := calc_unlocked_le_total hequ
  split at h
  · cases h
    exact ⟨Nat.le_refl _, hinv, sameStatics_refl _⟩
  have h2 : (if min (u - s.amount_transferred) vaultAmount = 0 then
      Except.ok s
    else
      match checkedAddU64 s.amount_transferred
          (min (u - s.amount_transferred) vaultAmount) with
      | none => Except.error VestingError.MathOverflow
      | some newAmt =>
        Except.ok { s with amount_transferred := newAmt }) = Except.ok s2 := h
  clear h
  split at h2
  · cases h2
    exact ⟨Nat.le_refl _, hinv, sameStatics_refl _⟩
  split at h2
  · exact Except.noConfusion h2
  next newAmt hadd =>
  unfold checkedAddU64 at hadd
  split at hadd
  · cases hadd
    cases h2
    refine ⟨by simp, by simp only; omega, rfl⟩
  · exact Option.noConfusion hadd

theorem runSingleCranks_inv :
    ∀ (ops : List (Int × Nat × Bool)) (s : VestingSchedule),
    s.amount_transferred ≤ s.total_amount →
    (runSingleCranks s ops).amount_transferred ≤
      (runSingleCranks s ops).total_amount := by
  intro ops
  induction ops with
  | nil =>
    intro s h
    exact h
  | cons op rest ih =>
    intro s h
    obtain ⟨now, vaultAmount, vaultInit⟩ := op
    simp only [runSingleCranks]
    cases hc : crank_vesting_schedule s vaultAmount vaultInit now with
    | error e =>
      exact ih s h
    | ok s1 =>
      exact ih s1 (crankSingle_bounds h hc).2.1

theorem runBatchCranks_inv :
    ∀ (calls : List (Nat × Int × List (Nat × Nat))) (σ : AccountsState),
    AmountsInvariant σ → AmountsInvariant (runBatchCranks σ calls) := by
  intro calls
  induction calls with
  | nil =>
    intro σ h
    exact h
  | cons c rest ih =>
    intro σ h
    obtain ⟨hubMint, now, pairs⟩ := c
    simp only [runBatchCranks]
    cases hc : crankBatch hubMint now σ pairs with
    | error e =>
      exact ih σ h
    | ok r =>
      obtain ⟨σ1, n⟩ := r
      exact ih σ1 (crankBatch_preserves_inv pairs σ σ1 n h hc)

/-- Claim C2: each batch-crank iteration and each single-schedule crank
call leaves amount_transferred non-decreasing and at most total_amount,
and the invariant is preserved across any sequence of settlement calls. -/
theorem claim_c2_amount_invariant :
    (∀ (hub : Nat) (now : Int) (σ σ2 : AccountsState) (sk vk : Nat)
      (o : StepOutcome),
      AmountsInvariant σ → crankStep hub now σ sk vk = .ok (σ2, o) →
      AmountsInvariant σ2 ∧
      (∀ k s s2, σ.schedules k = some s → σ2.schedules k = some s2 →
        s.amount_transferred ≤ s2.amount_transferred)) ∧
    (∀ (s : VestingSchedule) (vaultAmount : Nat) (vaultInit : Bool)
      (now : Int) (s2 : VestingSchedule),
      s.amount_transferred ≤ s.total_amount →
      crank_vesting_schedule s vaultAmount vaultInit now = .ok s2 →
      s.amount_transferred ≤ s2.amount_transferred ∧
      s2.amount_transferred ≤ s2.total_amount) ∧
    (∀ (calls : List (Nat × Int × List (Nat × Nat))) (σ : AccountsState),
      AmountsInvariant σ → AmountsInvariant (runBatchCranks σ calls)) ∧
    (∀ (ops : List (Int × Nat × Bool)) (s : VestingSchedule),
      s.amount_transferred ≤ s.total_amount →
      (runSingleCranks s ops).amount_transferred ≤
        (runSingleCranks s ops).total_amount) := by
  refine ⟨?_, ?_, runBatchCranks_inv, runSingleCranks_inv⟩
  · intro hub now σ σ2 sk vk o hinv hstep
    refine ⟨crankStep_preserves_inv hinv hstep, ?_⟩
    intro k s s2 h1 h2
    have hev := (crankStep_evolves hstep).1 k
    rw [h1, h2] at hev
    exact hev.2
  · intro s vaultAmount vaultInit now s2 hinv h
    exact ⟨(crankSingle_bounds hinv h).1, (crankSingle_bounds hinv h).2.1⟩

/-- Witness for claim C2: cranking the half-vested pair at t = 50
preserves the invariant and does not decrease amount_transferred. -/
theorem claim_c2_amount_invariant_witness :
    AmountsInvariant crankState1 ∧
    dupSchedule.amount_transferred ≤
      ({ dupSchedule with amount_transferred := 500 }).amount_transferred := by
  have hinv0 : AmountsInvariant crankState0 := by
    intro k s h
    simp only [crankState0] at h
    by_cases hk : k = 1
    · rw [if_pos hk] at h
      injection h with h
      subst h
      decide
    · rw [if_neg hk] at h
      exact Option.noConfusion h
  have h := claim_c2_amount_invariant.1 3 50 crankState0 crankState1 1 11
    .processed hinv0 (by rfl)
  refine ⟨h.1, h.2 1 dupSchedule { dupSchedule with amount_transferred := 500 }
    (by rfl) (by rfl)⟩

/-- Counterexample to claim C3: in a two-pair batch whose second pair has
a vault mismatch, the whole call returns the VaultMismatch error instead
of processing the first pair and skipping the second. -/
theorem claim_c3_counterexample :
    crankBatch 3 50 mismatchState0 [(1, 11), (2, 12)] =
      .error .VaultMismatch := rfl

/-- Claim C3 (amended): a validation/mismatch failure on any pair aborts
the entire batch call: after any successfully handled prefix of pairs,
the failing pair's error becomes the result of the whole call, so no
later sibling pair is processed, and - the transaction having failed -
the earlier pairs' releases are rolled back rather than kept. -/
theorem claim_c3_mismatch_aborts_batch :
    ∀ (hub : Nat) (now : Int) (pre : List (Nat × Nat)) (σ σ1 : AccountsState)
      (n : Nat) (sk vk : Nat) (rest : List (Nat × Nat)) (e : VestingError),
    crankBatch hub now σ pre = .ok (σ1, n) →
    crankStep hub now σ1 sk vk = .error e →
    crankBatch hub now σ (pre ++ (sk, vk) :: rest) = .error e := by
  intro hub now pre
  induction pre with
  | nil =>
    intro σ σ1 n sk vk rest e hpre hfail
    unfold crankBatch at hpre
    have hσ : σ = σ1 := congrArg Prod.fst (Except.ok.inj hpre)
    subst hσ
    rw [List.nil_append]
    unfold crankBatch
    simp only [hfail]
  | cons p pre' ih =>
    intro σ σ1 n sk vk rest e hpre hfail
    obtain ⟨a, b⟩ := p
    rw [List.cons_append]
    unfold crankBatch at hpre ⊢
    cases hstep : crankStep hub now σ a b with
    | error e2 =>
      simp only [hstep] at hpre
      exact Except.noConfusion hpre
    | ok r =>
      obtain ⟨σ3, o⟩ := r
      simp only [hstep] at hpre ⊢
      cases hrest : crankBatch hub now σ3 pre' with
      | error e2 =>
        simp only [hrest] at hpre
        exact Except.noConfusion hpre
      | ok r2 =>
        obtain ⟨σ4, m⟩ := r2
        simp only [hrest] at hpre
        have hσ : σ4 = σ1 := congrArg Prod.fst (Except.ok.inj hpre)
        subst hσ
        simp only [ih σ3 σ4 m sk vk rest e hrest hfail]

/-- Witness for claim C3 (amended): the two-pair mismatch batch, with the
valid pair as prefix, aborts with VaultMismatch. -/
theorem claim_c3_mismatch_aborts_batch_witness :
    crankBatch 3 50 mismatchState0 ([(1, 11)] ++ (2, 12) :: []) =
      .error .VaultMismatch :=
  claim_c3_mismatch_aborts_batch 3 50 [(1, 11)] mismatchState0
    ((mismatchState0.setVault 11 { dupVault with amount := 500 }).setSchedule 1
      { dupSchedule with amount_transferred := 500 })
    1 2 12 [] .VaultMismatch (by rfl) (by rfl)

/-- Claim C8: settlement is idempotent at a fixed timestamp - a second
identical batch call right after a successful one changes nothing and
processes zero pairs (every pair's transferable amount, clamped to the
vault balance, is zero on the second call). -/
theorem claim_c8_idempotent :
    ∀ (hub : Nat) (now : Int) (σ σ1 : AccountsState)
      (pairs : List (Nat × Nat)) (n : Nat),
    crankBatch hub now σ pairs = .ok (σ1, n) →
    crankBatch hub now σ1 pairs = .ok (σ1, 0) :=
  fun _ _ σ σ1 pairs n h =>
    crankBatch_stable pairs σ σ1 n h σ1 (stateEvolves_refl σ1)

/-- Witness for claim C8 on the half-vested pair at t = 50. -/
theorem claim_c8_idempotent_witness :
    crankBatch 3 50 crankState1 [(1, 11)] = .ok (crankState1, 0) :=
  claim_c8_idempotent 3 50 crankState0 crankState1 [(1, 11)] 1 (by rfl)

/-- Counterexample to claim C9: after the pair (1, 11) is settled at
t = 50, a duplicate reference to it is skipped with outcome
skippedNoTransferable - the transferable-amount-is-zero check - not via
the re-read concurrency guard, whose outcome would be skippedConcurrent. -/
theorem claim_c9_counterexample :
    crankBatch 3 50 crankState0 [(1, 11)] = .ok (crankState1, 1) ∧
    crankStep 3 50 crankState1 1 11 = .ok (crankState1, .skippedNoTransferable) ∧
    StepOutcome.skippedNoTransferable ≠ StepOutcome.skippedConcurrent :=
  ⟨rfl, rfl, by decide⟩

/-- Claim C9 (amended): a pair referencing a schedule already settled at
the same timestamp (earlier in the same batch or in a preceding call)
releases zero tokens and contributes 0 to the processed count, but it is
skipped by the zero-transferable / zero-actual / already-full checks, not
by the re-read concurrency guard: the guard never fires in any
non-aborting iteration, because the re-read occurs with no intervening
write to the schedule, so it always equals the step-1 value. -/
theorem claim_c9_duplicate_skip :
    (∀ (hub : Nat) (now : Int) (σ σ2 : AccountsState) (sk vk : Nat)
      (o : StepOutcome),
      crankStep hub now σ sk vk = .ok (σ2, o) → o ≠ .skippedConcurrent) ∧
    (∀ (hub : Nat) (now : Int) (σ σ2 : AccountsState) (sk vk : Nat)
      (o : StepOutcome) (τ : AccountsState),
      crankStep hub now σ sk vk = .ok (σ2, o) → StateEvolves σ2 τ →
      ∃ o2, crankStep hub now τ sk vk = .ok (τ, o2) ∧ o2 ≠ .processed ∧
        o2 ≠ .skippedConcurrent) := by
  constructor
  · intro hub now σ σ2 sk vk o hstep
    obtain ⟨s, v, _, _, _, _, _, _, _, _, hcases⟩ := crankStep_ok_cases hstep
    rcases hcases with ⟨ho, _, _⟩ | ⟨_, u, _, ⟨ho, _, _⟩ | ⟨ho, _, _, _⟩ |
      ⟨ho, _, _, _, _⟩⟩ <;> subst ho <;> decide
  · intro hub now σ σ2 sk vk o τ hstep hev
    exact crankStep_stable hstep hev

/-- Witness for claim C9 at the settled half-vested pair. -/
theorem claim_c9_duplicate_skip_witness :
    ∃ o2, crankStep 3 50 crankState1 1 11 = .ok (crankState1, o2) ∧
      o2 ≠ .processed ∧ o2 ≠ .skippedConcurrent :=
  claim_c9_duplicate_skip.2 3 50 crankState0 crankState1 1 11 .processed
    crankState1 (by rfl) (stateEvolves_refl crankState1)

/-- Claim C10: the number of pairs attempted is
min(max_schedules, 10, u8-truncation of remaining_len / 2): it never
exceeds 10 nor the supplied pair count, a call with 256 supplied pairs
(512 remaining accounts) attempts 0 pairs because of the u8 cast, and the
TooManyAccountsToProcess check can never fail. -/
theorem claim_c10_pair_count :
    (∀ (hubKey maxSchedules remainingLen : Nat), hubKey ≠ 0 →
      crankPrelude hubKey maxSchedules remainingLen =
        .ok (min (min maxSchedules 10) ((remainingLen / 2) % 256))) ∧
    (∀ maxSchedules remainingLen : Nat,
      min (min maxSchedules 10) ((remainingLen / 2) % 256) ≤ 10 ∧
      min (min maxSchedules 10) ((remainingLen / 2) % 256) ≤ remainingLen / 2) ∧
    (∀ (hubKey maxSchedules remainingLen : Nat),
      crankPrelude hubKey maxSchedules remainingLen ≠
        .error .TooManyAccountsToProcess) ∧
    crankPrelude 1 255 512 = .ok 0 := by
  have hok : ∀ (hubKey maxSchedules remainingLen : Nat), hubKey ≠ 0 →
      crankPrelude hubKey maxSchedules remainingLen =
        .ok (min (min maxSchedules 10) ((remainingLen / 2) % 256)) := by
    intro hubKey maxSchedules remainingLen hhub
    unfold crankPrelude MAX_SCHEDULES_PER_CRANK
    rw [if_neg hhub, if_neg]
    have h1 : (remainingLen / 2) % 256 ≤ remainingLen / 2 := Nat.mod_le _ _
    have h2 : remainingLen / 2 * 2 ≤ remainingLen := Nat.div_mul_le_self _ _
    omega
  refine ⟨hok, ?_, ?_, ?_⟩
  · intro maxSchedules remainingLen
    have h1 : (remainingLen / 2) % 256 ≤ remainingLen / 2 := Nat.mod_le _ _
    constructor
    · omega
    · omega
  · intro hubKey maxSchedules remainingLen
    by_cases hhub : hubKey = 0
    · unfold crankPrelude
      rw [if_pos hhub]
      intro hcontra
      exact VestingError.noConfusion (Except.error.inj hcontra)
    · rw [hok hubKey maxSchedules remainingLen hhub]
      intro hcontra
      exact Except.noConfusion hcontra
  · exact hok 1 255 512 (by decide)

/-- Witness for claim C10: with the hub set, 10 requested pairs and 6
remaining accounts, 3 pairs are attempted. -/
theorem claim_c10_pair_count_witness :
    crankPrelude 7 10 6 = .ok 3 :=
  claim_c10_pair_count.1 7 10 6 (by decide)

end HaioVesting
